import Mathlib

/-
Verification of the job-detail extraction pipeline of `WebScraper`
(src/main.py).  The HTML document is modelled as the parsed tree the
pipeline operates on (BeautifulSoup's parse tree with script/style
removal, tag/class/attribute selectors, text extraction); every regular
expression of the source is embedded as an executable matcher with
Python `re` semantics (leftmost match, greedy/lazy repetition with the
backtracking the concrete patterns can actually exercise, IGNORECASE
where the source passes it).
-/

namespace CVGen

/-- Characters Python treats as whitespace for `str.strip` and `\s`. -/
def isPySpace (c : Char) : Bool :=
  c = ' ' || c = '\t' || c = '\n' || c = '\r' || c = '\x0b' || c = '\x0c'

/-- Python `str.strip()` on a character list. -/
def pyStripL (l : List Char) : List Char :=
  ((l.dropWhile isPySpace).reverse.dropWhile isPySpace).reverse

/-- Python `str.strip()`. -/
def pyStrip (s : String) : String := String.mk (pyStripL s.data)

/-- Python `str.lower()` on a character list (ASCII). -/
def lowerL (l : List Char) : List Char := l.map Char.toLower

/-- Python `str.title()`: a cased character is uppercased when the previous
character is not cased, lowercased otherwise (ASCII). -/
def pyTitleL : List Char → Bool → List Char
  | [], _ => []
  | c :: t, prevAlpha =>
    (if c.isAlpha then (if prevAlpha then c.toLower else c.toUpper) else c)
      :: pyTitleL t c.isAlpha

/-- Python `str.title()`. -/
def pyTitle (s : String) : String := String.mk (pyTitleL s.data false)

/-- Python substring test `p in s` on character lists. -/
def isSubL : List Char → List Char → Bool
  | p, [] => p.isPrefixOf ([] : List Char)
  | p, s@(_ :: t) => p.isPrefixOf s || isSubL p t

-- Parsed HTML node: an element with tag name, class list, other
-- attributes and children, or a text node.
mutual
inductive Node where
  | elem (tag : String) (classes : List String)
      (attrs : List (String × String)) (children : NodeList)
  | text (s : String)
inductive NodeList where
  | nil
  | cons (n : Node) (l : NodeList)
end

/-- Build a `NodeList` from a `List Node`. -/
def nlist : List Node → NodeList
  | [] => NodeList.nil
  | n :: t => NodeList.cons n (nlist t)

/-- A parsed document: BeautifulSoup's `[document]` root over the
top-level nodes. -/
def doc (kids : List Node) : Node := Node.elem "[document]" [] [] (nlist kids)

-- The text fragments (NavigableStrings) of a node, in document order.
mutual
def frags : Node → List String
  | .text s => [s]
  | .elem _ _ _ ch => fragsL ch
def fragsL : NodeList → List String
  | .nil => []
  | .cons n t => frags n ++ fragsL t
end

/-- BeautifulSoup `get_text()`: all fragments joined with no separator. -/
def getAllText (n : Node) : String := String.join (frags n)

/-- BeautifulSoup `get_text(strip=True)`: each fragment stripped, empties
dropped, joined with no separator. -/
def nodeTextStrip (n : Node) : String :=
  String.join (((frags n).map pyStrip).filter (fun s => s != ""))

/-- BeautifulSoup `get_text(separator=' ', strip=True)`. -/
def nodeTextSpaceStrip (n : Node) : String :=
  String.intercalate " " (((frags n).map pyStrip).filter (fun s => s != ""))

/-- Removal of every `script` and `style` element (`element.decompose()`
in `extract_job_details`). -/
def stripBadL : NodeList → NodeList
  | .nil => .nil
  | .cons (.text s) rest => .cons (.text s) (stripBadL rest)
  | .cons (.elem t c a ch) rest =>
    if t = "script" ∨ t = "style" then stripBadL rest
    else .cons (.elem t c a (stripBadL ch)) (stripBadL rest)

/-- Removal of script/style elements from a whole document. -/
def stripBad : Node → Node
  | .text s => .text s
  | .elem t c a ch => .elem t c a (stripBadL ch)

/-- A simple CSS selector component: optional tag name, optional class
requirement, optional attribute equality requirement. -/
structure SSel where
  tag : Option String
  cls : Option String
  attr : Option (String × String)

/-- A CSS selector: required ancestors (outermost first) and the target
component (descendant combinator). -/
structure Sel where
  anc : List SSel
  target : SSel

/-- Whether an element with the given tag, classes and attributes matches
a simple selector component. -/
def matchesSimple (s : SSel) (tag : String) (classes : List String)
    (attrs : List (String × String)) : Bool :=
  (match s.tag with | none => true | some t => tag == t) &&
  (match s.cls with | none => true | some c => classes.contains c) &&
  (match s.attr with | none => true | some kv => attrs.contains kv)

/-- Ancestor context recorded during traversal: tag, classes, attributes. -/
abbrev AncInfo : Type := String × List String × List (String × String)

/-- Whether the required ancestor chain embeds (in order) into the actual
ancestor list (outermost first). -/
def ancChain : List SSel → List AncInfo → Bool
  | [], _ => true
  | _ :: _, [] => false
  | s :: rest, (t, c, a) :: arest =>
    (matchesSimple s t c a && ancChain rest arest) || ancChain (s :: rest) arest

-- `select_one`: first element in document order (pre-order) matching the
-- selector, traversing with the ancestor context.
mutual
def selOne (s : Sel) (anc : List AncInfo) : Node → Option Node
  | .text _ => none
  | .elem t c a ch =>
    if matchesSimple s.target t c a && ancChain s.anc anc then
      some (.elem t c a ch)
    else selOneL s (anc ++ [(t, c, a)]) ch
def selOneL (s : Sel) (anc : List AncInfo) : NodeList → Option Node
  | .nil => none
  | .cons n rest =>
    match selOne s anc n with
    | some r => some r
    | none => selOneL s anc rest
end

-- `soup.find(tag)`: first element with the given tag, pre-order.
mutual
def findTag (t : String) : Node → Option Node
  | .text _ => none
  | .elem tg c a ch =>
    if tg = t then some (.elem tg c a ch) else findTagL t ch
def findTagL (t : String) : NodeList → Option Node
  | .nil => none
  | .cons n rest =>
    match findTag t n with
    | some r => some r
    | none => findTagL t rest
end

-- `soup.find_all([tags])`: all elements with one of the tags, pre-order.
mutual
def findAllTags (ts : List String) : Node → List Node
  | .text _ => []
  | .elem tg c a ch =>
    (if ts.contains tg then [Node.elem tg c a ch] else []) ++ findAllTagsL ts ch
def findAllTagsL (ts : List String) : NodeList → List Node
  | .nil => []
  | .cons n rest => findAllTags ts n ++ findAllTagsL ts rest
end

/-- First selector in the cascade whose `select_one` finds any element
(used where the source only tests `if element:`). -/
def firstSelMatch (soup : Node) : List Sel → Option Node
  | [] => none
  | s :: rest =>
    match selOne s [] soup with
    | some el => some el
    | none => firstSelMatch soup rest

/-- First selector in the cascade whose matched element has non-empty
stripped text (used where the source tests
`if element and element.get_text(strip=True):`). -/
def firstSelNonEmpty (soup : Node) : List Sel → Option String
  | [] => none
  | s :: rest =>
    match selOne s [] soup with
    | some el =>
      let t := nodeTextStrip el
      if t = "" then firstSelNonEmpty soup rest else some t
    | none => firstSelNonEmpty soup rest

/-- Generic `re.search` position scan: try the position matcher at every
start position from the left, the end-of-string position included. -/
def scanOpt {α : Type} (f : List Char → Option α) : List Char → Option α
  | [] => f []
  | l@(_ :: t) =>
    match f l with
    | some r => some r
    | none => scanOpt f t

/-- Case-sensitive literal match at the current position: remainder. -/
def csDrop (p s : List Char) : Option (List Char) :=
  if p.isPrefixOf s then some (s.drop p.length) else none

/-- Case-insensitive literal match at the current position: remainder
(the pattern literal is given lowercased). -/
def ciDrop : List Char → List Char → Option (List Char)
  | [], s => some s
  | _, [] => none
  | pc :: pt, sc :: st => if sc.toLower = pc then ciDrop pt st else none

/-- Case-insensitive literal match returning the matched source characters
and the remainder. -/
def ciSplit : List Char → List Char → Option (List Char × List Char)
  | [], s => some ([], s)
  | _, [] => none
  | pc :: pt, sc :: st =>
    if sc.toLower = pc then
      match ciSplit pt st with
      | some (m, r) => some (sc :: m, r)
      | none => none
    else none

/-- The character class `[a-zA-Z\s&'.]` of the company-name patterns. -/
def isCompanyCls (c : Char) : Bool :=
  c.isAlpha || isPySpace c || c = '&' || c = Char.ofNat 39 || c = '.'

/-- The character class `[\d,]` of the salary patterns. -/
def isDigitComma (c : Char) : Bool := c.isDigit || c = ','

-- Title regex `\s*[-|]\s*(Jobs?|Careers?|Hiring).*$`, IGNORECASE, re.sub.

/-- Optional `s?` after a keyword (case-insensitive): skip it if present. -/
def dropOptS : List Char → List Char
  | c :: t => if c.toLower = 's' then t else c :: t
  | [] => []

/-- The keyword alternation `(Jobs?|Careers?|Hiring)` of the title-suffix
pattern, case-insensitively, returning the remainder after the keyword. -/
def titleKwDrop (l : List Char) : Option (List Char) :=
  match ciDrop "job".data l with
  | some r => some (dropOptS r)
  | none =>
    match ciDrop "career".data l with
    | some r => some (dropOptS r)
    | none => ciDrop "hiring".data l

/-- Tail condition of `.*$` with no DOTALL/MULTILINE: the rest must hold a
newline only as its final character; the returned list is what the
substitution leaves behind (`[]` or a final newline). -/
def titleTailLeft (rest : List Char) : Option (List Char) :=
  if rest.contains '\n' then
    if rest.dropLast.contains '\n' then none else some ['\n']
  else some []

/-- One position attempt of the title-suffix pattern: whitespace run, a
dash or pipe, whitespace run, keyword, then `.*$`. -/
def tryTitleAt (l : List Char) : Option (List Char) :=
  match l.dropWhile isPySpace with
  | c :: r1 =>
    if c = '-' ∨ c = '|' then
      match titleKwDrop (r1.dropWhile isPySpace) with
      | some rest => titleTailLeft rest
      | none => none
    else none
  | [] => none

/-- Scan for the leftmost title-suffix match, keeping the prefix before it
and whatever the substitution leaves. -/
def stripTitleScan (pre : List Char) : List Char → List Char
  | [] => pre.reverse
  | l@(c :: t) =>
    match tryTitleAt l with
    | some leftover => pre.reverse ++ leftover
    | none => stripTitleScan (c :: pre) t

/-- `re.sub(r'\s*[-|]\s*(Jobs?|Careers?|Hiring).*$', '', s, flags=re.IGNORECASE)`. -/
def stripTitleSuffix (s : String) : String := String.mk (stripTitleScan [] s.data)

-- Company pattern 1: `(?:Company|Employer|Organization):\s*([A-Z][a-zA-Z\s&'.]+)`.

/-- Label alternation of company pattern 1 (case-sensitive, colon included). -/
def companyKw1 (l : List Char) : Option (List Char) :=
  match csDrop "Company:".data l with
  | some r => some r
  | none =>
    match csDrop "Employer:".data l with
    | some r => some r
    | none => csDrop "Organization:".data l

/-- One position attempt of company pattern 1, returning group 1. -/
def tryCompany1 (l : List Char) : Option (List Char) :=
  match companyKw1 l with
  | none => none
  | some r =>
    match r.dropWhile isPySpace with
    | c :: rest =>
      if c.isUpper then
        let body := rest.takeWhile isCompanyCls
        if body.isEmpty then none else some (c :: body)
      else none
    | [] => none

-- Company pattern 2: `(?:at|@)\s+([A-Z][a-zA-Z\s&'.]+?)(?:\s|$)`.

/-- Lazy part of company pattern 2: the shortest non-empty run of class
characters after the initial capital that is followed by whitespace or
the end of the text. -/
def lazy2 : List Char → Option (List Char)
  | [] => none
  | c :: rest =>
    if isCompanyCls c then
      match rest with
      | [] => some [c]
      | d :: _ =>
        if isPySpace d then some [c]
        else
          match lazy2 rest with
          | some g => some (c :: g)
          | none => none
    else none

/-- One position attempt of company pattern 2, returning group 1. -/
def tryCompany2 (l : List Char) : Option (List Char) :=
  let after : Option (List Char) :=
    match csDrop "at".data l with
    | some r => some r
    | none =>
      match l with
      | '@' :: r => some r
      | _ => none
  match after with
  | none => none
  | some r =>
    if (r.takeWhile isPySpace).isEmpty then none
    else
      match r.dropWhile isPySpace with
      | c :: rest =>
        if c.isUpper then
          match lazy2 rest with
          | some g => some (c :: g)
          | none => none
        else none
      | [] => none

-- Company pattern 3: `([A-Z][a-zA-Z\s&'.]{2,30})\s+(?:is hiring|seeks|looking for)`.

/-- Tail of company pattern 3: mandatory whitespace then one of the verb
literals (case-sensitive). -/
def tailOk3 (l : List Char) : Bool :=
  if (l.takeWhile isPySpace).isEmpty then false
  else
    let r := l.dropWhile isPySpace
    "is hiring".data.isPrefixOf r || "seeks".data.isPrefixOf r ||
      "looking for".data.isPrefixOf r

/-- Greedy `{2,30}` descent for company pattern 3: largest body length
whose tail matches. -/
def greedy3 (c : Char) (rest : List Char) : Nat → Option (List Char)
  | 0 => none
  | j + 1 =>
    if j + 1 < 2 then none
    else if tailOk3 (rest.drop (j + 1)) then some (c :: rest.take (j + 1))
    else greedy3 c rest j

/-- One position attempt of company pattern 3, returning group 1. -/
def tryCompany3 (l : List Char) : Option (List Char) :=
  match l with
  | c :: rest =>
    if c.isUpper then
      greedy3 c rest (min (rest.takeWhile isCompanyCls).length 30)
    else none
  | [] => none

-- Requirement patterns `(?:KW|...)[:\s]*([^.]+)`, IGNORECASE, re.findall.

/-- The character class `[:\s]`. -/
def isColonSpace (c : Char) : Bool := c = ':' || isPySpace c

/-- Tail `[:\s]*([^.]+)` of the requirement patterns with the one
productive greedy give-back: returns (group 1, remainder after match). -/
def reqTail (l : List Char) : Option (List Char × List Char) :=
  let run := l.takeWhile isColonSpace
  let rem := l.drop run.length
  match rem with
  | c :: _ =>
    if c ≠ '.' then
      let g := rem.takeWhile (fun d => d ≠ '.')
      some (g, rem.drop g.length)
    else
      match run.getLast? with
      | some lastc => some ([lastc], rem)
      | none => none
  | [] =>
    match run.getLast? with
    | some lastc => some ([lastc], rem)
    | none => none

/-- One keyword attempt (case-insensitive, optional trailing `s` tried
greedily first) followed by the requirement tail. -/
def tryKwS (kw : List Char) (optS : Bool) (l : List Char) :
    Option (List Char × List Char) :=
  match ciDrop kw l with
  | none => none
  | some r =>
    if optS then
      match r with
      | c :: t =>
        if c.toLower = 's' then
          match reqTail t with
          | some res => some res
          | none => reqTail r
        else reqTail r
      | [] => reqTail r
    else reqTail r

/-- Keyword alternation attempt at one position. -/
def tryReqKws : List (List Char × Bool) → List Char → Option (List Char × List Char)
  | [], _ => none
  | (kw, s) :: ks, l =>
    match tryKwS kw s l with
    | some r => some r
    | none => tryReqKws ks l

/-- Fuelled `re.findall` scan: leftmost non-overlapping matches, resuming
after each match end; every step consumes at least one character, so
fuel equal to the initial length is never exhausted early. -/
def findAllReqAux (kws : List (List Char × Bool)) : Nat → List Char → List (List Char)
  | 0, _ => []
  | _ + 1, [] => []
  | n + 1, l@(_ :: t) =>
    match tryReqKws kws l with
    | some (g, rest) => g :: findAllReqAux kws n rest
    | none => findAllReqAux kws n t

/-- `re.findall(pattern, text, re.IGNORECASE)` for a requirement pattern. -/
def findAllReq (kws : List (List Char × Bool)) (l : List Char) : List (List Char) :=
  findAllReqAux kws l.length l

/-- Keywords of `(?:Requirements?|Qualifications?|Skills?|Must have)`. -/
def reqKwsA : List (List Char × Bool) :=
  [("requirement".data, true), ("qualification".data, true),
   ("skill".data, true), ("must have".data, false)]

/-- Keywords of `(?:You will need|We are looking for|Ideal candidate)`. -/
def reqKwsB : List (List Char × Bool) :=
  [("you will need".data, false), ("we are looking for".data, false),
   ("ideal candidate".data, false)]

/-- Keywords of `(?:Essential|Required|Mandatory)`. -/
def reqKwsC : List (List Char × Bool) :=
  [("essential".data, false), ("required".data, false),
   ("mandatory".data, false)]

-- Salary patterns, IGNORECASE, re.search returning group(0).

/-- Alternation `annually|pa` (case-insensitive), matched characters. -/
def tryAnnuallyPa (r : List Char) : Option (List Char) :=
  match ciSplit "annually".data r with
  | some (m, _) => some m
  | none =>
    match ciSplit "pa".data r with
    | some (m, _) => some m
    | none => none

/-- Alternation `per\s+year|annually|pa` (case-insensitive), matched
characters. -/
def salSuffixCore (r : List Char) : Option (List Char) :=
  match ciSplit "per".data r with
  | some (m1, r1) =>
    let ws := r1.takeWhile isPySpace
    if ws.isEmpty then tryAnnuallyPa r
    else
      match ciSplit "year".data (r1.drop ws.length) with
      | some (m2, _) => some (m1 ++ ws ++ m2)
      | none => tryAnnuallyPa r
  | none => tryAnnuallyPa r

/-- Optional suffix `(?:\s*(?:per\s+year|annually|pa))?`: consumed
characters, empty when it does not match. -/
def salSuffix (l : List Char) : List Char :=
  let ws := l.takeWhile isPySpace
  match salSuffixCore (l.drop ws.length) with
  | some m => ws ++ m
  | none => []

/-- Optional range `(?:\s*-\s*\$[\d,]+)?` of salary pattern 1: consumed
characters and remainder. -/
def salRange (l : List Char) : List Char × List Char :=
  let ws1 := l.takeWhile isPySpace
  match l.drop ws1.length with
  | '-' :: r2 =>
    let ws2 := r2.takeWhile isPySpace
    match r2.drop ws2.length with
    | '$' :: r4 =>
      let d := r4.takeWhile isDigitComma
      if d.isEmpty then ([], l)
      else (ws1 ++ '-' :: ws2 ++ '$' :: d, r4.drop d.length)
    | _ => ([], l)
  | _ => ([], l)

/-- One position attempt of salary pattern 1
`\$[\d,]+(?:\s*-\s*\$[\d,]+)?(?:\s*(?:per\s+year|annually|pa))?`,
returning group 0. -/
def trySal1 : List Char → Option (List Char)
  | '$' :: rest =>
    let d1 := rest.takeWhile isDigitComma
    if d1.isEmpty then none
    else
      let (rangePart, afterRange) := salRange (rest.drop d1.length)
      some ('$' :: d1 ++ rangePart ++ salSuffix afterRange)
  | _ => none

/-- Optional `k?` (case-insensitive): consumed characters and remainder. -/
def optK (l : List Char) : List Char × List Char :=
  match l with
  | c :: t => if c.toLower = 'k' then ([c], t) else ([], l)
  | [] => ([], [])

/-- One position attempt of salary pattern 2
`[\d,]+k?\s*-\s*[\d,]+k?\s*(?:per\s+year|annually|pa)`, returning group 0. -/
def trySal2 (l : List Char) : Option (List Char) :=
  let d1 := l.takeWhile isDigitComma
  if d1.isEmpty then none
  else
    let (k1, r2) := optK (l.drop d1.length)
    let ws1 := r2.takeWhile isPySpace
    match r2.drop ws1.length with
    | '-' :: r4 =>
      let ws2 := r4.takeWhile isPySpace
      let r5 := r4.drop ws2.length
      let d2 := r5.takeWhile isDigitComma
      if d2.isEmpty then none
      else
        let (k2, r7) := optK (r5.drop d2.length)
        let ws3 := r7.takeWhile isPySpace
        match salSuffixCore (r7.drop ws3.length) with
        | some m =>
          some (d1 ++ k1 ++ ws1 ++ '-' :: ws2 ++ d2 ++ k2 ++ ws3 ++ m)
        | none => none
    | _ => none

/-- The character class `[^.\n]`. -/
def notDotNl (c : Char) : Bool := c ≠ '.' && c ≠ '\n'

/-- Greedy give-back for `\s*([^.\n]+)` when the first character after the
whitespace run is excluded: the run less its trailing newlines, whose
final character then forms the group. -/
def sal3Give (run : List Char) : Option (List Char) :=
  let r := (run.reverse.dropWhile (fun c => c = '\n')).reverse
  if r.isEmpty then none else some r

/-- Tail `\s*([^.\n]+)` of salary pattern 3: total consumed characters. -/
def sal3Tail (l : List Char) : Option (List Char) :=
  let run := l.takeWhile isPySpace
  let rem := l.drop run.length
  match rem with
  | c :: _ =>
    if notDotNl c then some (run ++ rem.takeWhile notDotNl)
    else sal3Give run
  | [] => sal3Give run

/-- Part of salary pattern 3 after the label: greedy optional colon with
its backtrack, then `\s*([^.\n]+)`; total consumed characters. -/
def sal3After (r : List Char) : Option (List Char) :=
  match r with
  | ':' :: r1 =>
    match sal3Tail r1 with
    | some consumed => some (':' :: consumed)
    | none => sal3Tail r
  | _ => sal3Tail r

/-- One position attempt of salary pattern 3 `Salary:?\s*([^.\n]+)`
(case-insensitive), returning group 0 — the label included. -/
def trySal3 (l : List Char) : Option (List Char) :=
  match ciSplit "salary".data l with
  | none => none
  | some (kw, r) => (sal3After r).map (fun z => kw ++ z)

-- Job-type pattern `\b(full-time|part-time|contract|temporary|permanent|casual)\b`.

/-- Python regex word character `\w` (ASCII). -/
def wordChar (c : Char) : Bool := c.isAlphanum || c = '_'

/-- Word boundary after a token. -/
def boundaryAfter (rest : List Char) : Bool :=
  match rest with
  | [] => true
  | c :: _ => !(wordChar c)

/-- The six job-type tokens, in the pattern's alternation order. -/
def jobTypeTokens : List String :=
  ["full-time", "part-time", "contract", "temporary", "permanent", "casual"]

/-- A token matches at this position when it is a literal prefix followed
by a word boundary. -/
def tokenHereOk (l : List Char) (tok : List Char) : Bool :=
  tok.isPrefixOf l && boundaryAfter (l.drop tok.length)

/-- Leftmost `re.search` over the lowered text, tracking the word-character
status of the previous character for the leading `\b`. -/
def scanJobType (prev : Bool) : List Char → Option String
  | [] => none
  | c :: t =>
    if prev then scanJobType (wordChar c) t
    else
      match jobTypeTokens.find? (fun tok => tokenHereOk (c :: t) tok.data) with
      | some tok => some tok
      | none => scanJobType (wordChar c) t

-- The extraction pipeline (WebScraper, src/main.py lines 134-338).

/-- Extracted job details (`JobDetails` model). -/
structure JobDetails where
  company_name : String
  job_title : String
  job_description : String
  requirements : List String
  salary_range : Option String
  location : Option String
  job_type : Option String
  industry : Option String
deriving DecidableEq

/-- The title selector cascade of `_extract_job_title`. -/
def titleSelectors : List Sel :=
  [⟨[], ⟨some "h1", none, some ("data-automation", "job-detail-title")⟩⟩,
   ⟨[], ⟨some "h1", some "jobsearch-JobInfoHeader-title", none⟩⟩,
   ⟨[⟨none, some "job-title", none⟩], ⟨some "h1", none, none⟩⟩,
   ⟨[⟨none, some "job-header", none⟩], ⟨some "h1", none, none⟩⟩,
   ⟨[], ⟨some "h1", none, none⟩⟩,
   ⟨[], ⟨none, none, some ("data-testid", "job-title")⟩⟩]

/-- `_extract_job_title`: selector cascade requiring non-empty stripped
text, then the `<title>` tag with the Jobs/Careers/Hiring suffix
stripped, then the placeholder. -/
def extract_job_title (soup : Node) : String :=
  match firstSelNonEmpty soup titleSelectors with
  | some t => t
  | none =>
    match findTag "title" soup with
    | some tg => stripTitleSuffix (nodeTextStrip tg)
    | none => "Unknown Position"

/-- The company selector cascade of `_extract_company_name`. -/
def companySelectors : List Sel :=
  [⟨[], ⟨none, none, some ("data-automation", "advertiser-name")⟩⟩,
   ⟨[], ⟨none, some "company-name", none⟩⟩,
   ⟨[], ⟨none, some "employer-name", none⟩⟩,
   ⟨[], ⟨none, none, some ("data-testid", "company-name")⟩⟩,
   ⟨[⟨none, some "company", none⟩], ⟨some "a", none, none⟩⟩]

/-- The false-positive filter of `_extract_company_name`: accepted when
longer than two characters and not a known false positive. -/
def acceptCompany (c : String) : Bool :=
  decide (2 < c.length) && !(["Apply Now", "Click Here", "More Info"].contains c)

/-- The regex loop of `_extract_company_name`: for each pattern in order,
take its first match; return the stripped group when the filter accepts
it, otherwise move to the next pattern. -/
def companyLoop (t : List Char) :
    List (List Char → Option (List Char)) → Option String
  | [] => none
  | p :: rest =>
    match scanOpt p t with
    | some g =>
      let c := pyStrip (String.mk g)
      if acceptCompany c then some c else companyLoop t rest
    | none => companyLoop t rest

/-- The three company regex position matchers, in source order. -/
def companyPatterns : List (List Char → Option (List Char)) :=
  [tryCompany1, tryCompany2, tryCompany3]

/-- `_extract_company_name`: selector cascade requiring non-empty text,
then the regex loop over the full text, then the placeholder. -/
def extract_company_name (soup : Node) (jobTitle : String) : String :=
  match firstSelNonEmpty soup companySelectors with
  | some c => c
  | none =>
    (companyLoop (getAllText soup).data companyPatterns).getD
      "Company Name Not Found"

/-- The description selector cascade of `_extract_job_description`. -/
def descriptionSelectors : List Sel :=
  [⟨[], ⟨none, none, some ("data-automation", "jobAdDetails")⟩⟩,
   ⟨[], ⟨none, some "job-description", none⟩⟩,
   ⟨[], ⟨none, some "jobsearch-jobDescriptionText", none⟩⟩,
   ⟨[], ⟨none, some "job-details", none⟩⟩,
   ⟨[], ⟨none, some "description", none⟩⟩]

/-- `_extract_job_description`: first matching selector (existence only)
returns its space-joined stripped text uncapped; otherwise the
`<article>`, else `<main>`, else whole-document text truncated to 2000
characters. -/
def extract_job_description (soup : Node) : String :=
  match firstSelMatch soup descriptionSelectors with
  | some el => nodeTextSpaceStrip el
  | none =>
    let base :=
      match findTag "article" soup with
      | some a => a
      | none =>
        match findTag "main" soup with
        | some m => m
        | none => soup
    String.mk ((nodeTextSpaceStrip base).data.take 2000)

/-- The regex pass of `_extract_requirements`: the three label patterns
run by `re.findall` over the description, each group stripped and kept
when longer than ten characters. -/
def regexRequirements (description : String) : List String :=
  ((findAllReq reqKwsA description.data ++ findAllReq reqKwsB description.data
      ++ findAllReq reqKwsC description.data).map
    (fun g => pyStrip (String.mk g))).filter (fun r => decide (10 < r.length))

/-- The bullet keywords of the structural requirements pass. -/
def bulletKeywords : List String :=
  ["experience", "skill", "knowledge", "degree", "certification"]

/-- The structural pass of `_extract_requirements`: every `li` or `p`
node whose lowered text holds a bullet keyword and whose stripped length
is strictly between 20 and 200. -/
def bulletRequirements (soup : Node) : List String :=
  ((findAllTags ["li", "p"] soup).map nodeTextStrip).filter
    (fun t =>
      bulletKeywords.any (fun k => isSubL k.data (lowerL t.data)) &&
      decide (20 < t.length) && decide (t.length < 200))

/-- `_extract_requirements`: both passes merged, deduplicated as a set,
truncated to ten entries. -/
def extract_requirements (soup : Node) (description : String) : List String :=
  ((regexRequirements description ++ bulletRequirements soup).dedup).take 10

/-- The ordered salary pattern cascade of `_extract_salary` on the full
text, each `re.search` returning group 0. -/
def salaryScan (t : List Char) : Option (List Char) :=
  match scanOpt trySal1 t with
  | some m => some m
  | none =>
    match scanOpt trySal2 t with
    | some m => some m
    | none => scanOpt trySal3 t

/-- `_extract_salary`: first matching pattern's whole match, stripped;
absent when none matches.  The description argument is unused, as in the
source. -/
def extract_salary (soup : Node) (description : String) : Option String :=
  (salaryScan (getAllText soup).data).map (fun m => pyStrip (String.mk m))

/-- The location selector cascade of `_extract_location`. -/
def locationSelectors : List Sel :=
  [⟨[], ⟨none, none, some ("data-automation", "job-detail-location")⟩⟩,
   ⟨[], ⟨none, some "location", none⟩⟩,
   ⟨[], ⟨none, some "job-location", none⟩⟩,
   ⟨[], ⟨none, none, some ("data-testid", "location")⟩⟩]

/-- The selector loop of `_extract_location`: the first selector that
matches any element at all returns that element's stripped text. -/
def locLoop (soup : Node) : List Sel → Option String
  | [] => none
  | s :: rest =>
    match selOne s [] soup with
    | some el => some (nodeTextStrip el)
    | none => locLoop soup rest

/-- `_extract_location`. -/
def extract_location (soup : Node) : Option String :=
  locLoop soup locationSelectors

/-- `_extract_job_type`: word-bounded token search over the lowered full
text, the match passed through `str.title()`.  The description argument
is unused, as in the source. -/
def extract_job_type (soup : Node) (description : String) : Option String :=
  match scanJobType false (lowerL (getAllText soup).data) with
  | some tok => some (pyTitle tok)
  | none => none

/-- The industry keyword table of `_extract_industry`, in insertion
order; note the upper-case keyword `IT`. -/
def industryKeywordTable : List (String × List String) :=
  [("technology", ["software", "tech", "digital", "IT", "computer"]),
   ("finance", ["bank", "finance", "investment", "accounting"]),
   ("healthcare", ["health", "medical", "hospital", "pharmaceutical"]),
   ("education", ["university", "school", "education", "academic"]),
   ("retail", ["retail", "store", "shop", "commerce"])]

/-- First industry in table order with any keyword occurring verbatim as a
substring of the (already lowered) text, title-cased. -/
def firstIndustry (t : List Char) : List (String × List String) → Option String
  | [] => none
  | (ind, kws) :: rest =>
    if kws.any (fun k => isSubL k.data t) then some (pyTitle ind)
    else firstIndustry t rest

/-- `_extract_industry`: keyword classification over
`(soup.get_text() + ' ' + company_name).lower()`. -/
def extract_industry (soup : Node) (company_name : String) : Option String :=
  firstIndustry (lowerL ((getAllText soup).data ++ ' ' :: company_name.data))
    industryKeywordTable

/-- `extract_job_details`: script/style removal, then the eight
sub-extractors assembled into a `JobDetails`.  The url argument is used
only for logging in the source. -/
def extract_job_details (html : Node) (url : String) : JobDetails :=
  let soup := stripBad html
  let job_title := extract_job_title soup
  let company_name := extract_company_name soup job_title
  let job_description := extract_job_description soup
  let requirements := extract_requirements soup job_description
  let salary_range := extract_salary soup job_description
  let location := extract_location soup
  let job_type := extract_job_type soup job_description
  let industry := extract_industry soup company_name
  ⟨company_name, job_title, job_description, requirements, salary_range,
    location, job_type, industry⟩

-- Derived forms and concrete documents used by the theorems below.

/-- The title strategies short of the terminal placeholder: selector
cascade, else the stripped `<title>` text; `none` exactly when the
placeholder is due. -/
def titleAttempt (soup : Node) : Option String :=
  match firstSelNonEmpty soup titleSelectors with
  | some t => some t
  | none => (findTag "title" soup).map (fun tg => stripTitleSuffix (nodeTextStrip tg))

/-- The company strategies short of the terminal placeholder. -/
def companyAttempt (soup : Node) : Option String :=
  match firstSelNonEmpty soup companySelectors with
  | some c => some c
  | none => companyLoop (getAllText soup).data companyPatterns

/-- The candidate company names produced by the three regex searches, in
pattern order, stripped. -/
def companyCandidates (t : List Char) : List String :=
  (([scanOpt tryCompany1 t, scanOpt tryCompany2 t,
      scanOpt tryCompany3 t].filterMap id).map (fun g => pyStrip (String.mk g)))

/-- Whether any keyword of the list occurs verbatim in the text. -/
def anyKw (kws : List String) (t : List Char) : Bool :=
  kws.any (fun k => isSubL k.data t)

/-- First industry with any keyword occurring case-insensitively: the
keyword itself is lowered before the substring test. -/
def firstIndustryCI (t : List Char) : List (String × List String) → Option String
  | [] => none
  | (ind, kws) :: rest =>
    if kws.any (fun k => isSubL (lowerL k.data) t) then some (pyTitle ind)
    else firstIndustryCI t rest

/-- The industry classifier as the specification words it: each keyword
occurs as a case-insensitive substring of the text plus company name, so
both sides are lowered.  Stated for comparison with `extract_industry`,
which lowers the text only. -/
def industrySpec (soup : Node) (company_name : String) : Option String :=
  firstIndustryCI (lowerL ((getAllText soup).data ++ ' ' :: company_name.data))
    industryKeywordTable

/-- The empty document. -/
def emptyDoc : Node := doc []

/-- The end-to-end scenario document of the specification:
`<title>Software Engineer - Jobs at Acme</title><article>Acme Corp is
hiring a Software Engineer. Requirements: 5 years Python
experience.</article>`. -/
def c10doc : Node := doc
  [Node.elem "title" [] [] (nlist [Node.text "Software Engineer - Jobs at Acme"]),
   Node.elem "article" [] []
     (nlist [Node.text
       "Acme Corp is hiring a Software Engineer. Requirements: 5 years Python experience."])]

/-- A 210-character requirement entry with no period. -/
def c2entry : String := String.mk (List.replicate 210 'x')

/-- A document whose description yields a requirement entry longer than
200 characters through the regex pass. -/
def c2doc : Node := doc
  [Node.elem "div" ["job-description"] []
    (nlist [Node.text ("Requirements: " ++ c2entry)])]

/-- A document whose visible text holds the token full-time. -/
def c3doc : Node := doc [Node.text "This is a full-time position"]

/-- A document whose visible text holds the keyword `IT` in upper case and
no other industry keyword. -/
def c4doc : Node := doc [Node.text "IT department"]

/-- A document holding both a technology keyword and a finance keyword. -/
def c4prioDoc : Node := doc [Node.text "software bank"]

/-- A document with an empty `<title>` element and no structural hook. -/
def c5ceDoc : Node := doc [Node.elem "title" [] [] (nlist [])]

/-- A document whose only content is a `<title>` with a strippable
Careers suffix. -/
def c5wDoc : Node := doc
  [Node.elem "title" [] [] (nlist [Node.text "Data Analyst | Careers at Foo"])]

/-- A document whose text matches company pattern 1. -/
def c6wDoc : Node := doc [Node.text "Company: Acme Corp."]

/-- A document whose text matches only the `Salary:` label pattern. -/
def c7doc : Node := doc [Node.text "Salary: negotiable"]

/-- A document with an empty-text `.location` match before a non-empty
`.job-location` match. -/
def c8doc : Node := doc
  [Node.elem "div" ["location"] [] (nlist []),
   Node.elem "div" ["job-location"] [] (nlist [Node.text "Sydney"])]

/-- The specification's location scenario document:
`<span class="location">Remote, AU</span>`. -/
def c8remoteDoc : Node := doc
  [Node.elem "span" ["location"] [] (nlist [Node.text "Remote, AU"])]

/-- A document whose description selector matches an element with 2001
characters of text. -/
def c9doc : Node := doc
  [Node.elem "div" ["job-description"] []
    (nlist [Node.text (String.mk (List.replicate 2001 'a'))])]

-- Helper lemmas.

set_option maxRecDepth 8000

/-- A successful token scan returns a member of the token table. -/
theorem scanJobType_mem : ∀ (l : List Char) (prev : Bool) (tok : String),
    scanJobType prev l = some tok → tok ∈ jobTypeTokens := by
  intro l
  induction l with
  | nil => intro prev tok h; simp [scanJobType] at h
  | cons c t ih =>
    intro prev tok h
    simp only [scanJobType] at h
    split at h
    · exact ih _ _ h
    · split at h
      · cases h; exact List.mem_of_find?_eq_some (by assumption)
      · exact ih _ _ h

/-- A successful position scan comes from a successful position attempt. -/
theorem scanOpt_some {α : Type} (f : List Char → Option α) :
    ∀ (l : List Char) (r : α), scanOpt f l = some r → ∃ l2, f l2 = some r := by
  intro l
  induction l with
  | nil => intro r h; exact ⟨[], by simpa [scanOpt] using h⟩
  | cons c t ih =>
    intro r h
    simp only [scanOpt] at h
    split at h
    · exact ⟨c :: t, by simp_all⟩
    · exact ih _ h

/-- A list is a Boolean prefix of itself followed by anything. -/
theorem prefixOf_append (p x : List Char) : p.isPrefixOf (p ++ x) = true := by
  induction p with
  | nil => simp [List.isPrefixOf]
  | cons c t ih => simp [List.isPrefixOf, ih]

/-- A case-insensitive split lowers the matched characters to the
pattern. -/
theorem ciSplit_lower : ∀ (p s m r : List Char),
    ciSplit p s = some (m, r) → lowerL m = p := by
  intro p
  induction p with
  | nil =>
    intro s m r h
    simp only [ciSplit] at h
    cases h
    simp [lowerL]
  | cons pc pt ih =>
    intro s m r h
    cases s with
    | nil => simp [ciSplit] at h
    | cons sc st =>
      simp only [ciSplit] at h
      split at h
      · rename_i hlow
        rcases hrec : ciSplit pt st with _ | ⟨m2, r2⟩
        · simp only [hrec] at h
          exact Option.noConfusion h
        · simp only [hrec] at h
          cases h
          have h2 : List.map Char.toLower m2 = pt := ih _ _ _ hrec
          simp only [lowerL, List.map]
          rw [hlow, h2]
      · cases h

/-- A successful salary pattern 3 attempt is the label plus a tail, so its
lowering starts with the label.  -/
theorem trySal3_label (l m : List Char) (h : trySal3 l = some m) :
    "salary".data.isPrefixOf (lowerL m) = true := by
  unfold trySal3 at h
  split at h
  · cases h
  · rename_i kw r heq
    rcases Option.map_eq_some'.mp h with ⟨z, _, rfl⟩
    have hk : List.map Char.toLower kw = "salary".data := ciSplit_lower _ _ _ _ heq
    show ("salary".data).isPrefixOf (List.map Char.toLower (kw ++ z)) = true
    rw [List.map_append, hk]
    exact prefixOf_append _ _

/-- The location loop is the existence-only selector cascade. -/
theorem locLoop_eq_firstSelMatch (soup : Node) :
    ∀ sels, locLoop soup sels = (firstSelMatch soup sels).map nodeTextStrip := by
  intro sels
  induction sels with
  | nil => rfl
  | cons s rest ih =>
    simp only [locLoop, firstSelMatch]
    cases h : selOne s [] soup <;> simp [h, ih]

-- Claim theorems.

/-- C1: extraction is total — `extract_job_details` returns a `JobDetails`
for every document; the title and company sub-extractors end in their
placeholder exactly when every strategy is absent, and on the empty
document every field degrades to its placeholder or absence. -/
theorem c1_extraction_never_fails :
    (∀ soup, extract_job_title soup = (titleAttempt soup).getD "Unknown Position") ∧
    (∀ soup jt, extract_company_name soup jt =
      (companyAttempt soup).getD "Company Name Not Found") ∧
    extract_job_details emptyDoc "" =
      ⟨"Company Name Not Found", "Unknown Position", "", [], none, none, none, none⟩ := by
  refine ⟨fun soup => ?_, fun soup jt => ?_, by decide⟩
  · simp only [extract_job_title, titleAttempt]
    cases h : firstSelNonEmpty soup titleSelectors
    · cases h2 : findTag "title" soup <;> simp
    · simp
  · simp only [extract_company_name, companyAttempt]
    cases h : firstSelNonEmpty soup companySelectors <;> simp

/-- C2 counterexample: on `c2doc` the regex pass produces a single
210-character requirement entry, violating the claimed 200-character
upper bound. -/
theorem c2_upper_bound_counterexample :
    extract_requirements c2doc (extract_job_description c2doc) = [c2entry] ∧
    200 < c2entry.length := by
  constructor <;> decide

/-- C2 amended: the requirements list has at most ten entries, no exact
duplicates, and every entry longer than ten characters; only the
structural pass bounds entries above (by 200), the regex pass does not. -/
theorem c2_requirements_shape : ∀ soup desc,
    (extract_requirements soup desc).length ≤ 10 ∧
    (extract_requirements soup desc).Nodup ∧
    ∀ s ∈ extract_requirements soup desc, 10 < s.length := by
  intro soup desc
  refine ⟨List.length_take_le _ _,
    (List.take_sublist _ _).nodup (List.nodup_dedup _), ?_⟩
  intro s hs
  have hs2 : s ∈ (regexRequirements desc ++ bulletRequirements soup).dedup :=
    List.take_subset _ _ hs
  rcases List.mem_append.mp (List.mem_dedup.mp hs2) with h | h
  · simp only [regexRequirements, List.mem_filter, decide_eq_true_eq] at h
    exact h.2
  · simp only [bulletRequirements, List.mem_filter, Bool.and_eq_true,
      decide_eq_true_eq] at h
    omega

/-- C2 witness: the amended theorem applied to the concrete document. -/
theorem c2_requirements_shape_witness : 10 < c2entry.length :=
  (c2_requirements_shape c2doc (extract_job_description c2doc)).2.2 c2entry
    (by decide)

/-- C3 counterexample: the text full-time is title-cased by Python to
Full-Time, which is not among the six canonical strings of the claim. -/
theorem c3_title_case_counterexample :
    extract_job_type c3doc "" = some "Full-Time" ∧
    ¬ "Full-Time" ∈ ["Full-time", "Part-time", "Contract", "Temporary",
      "Permanent", "Casual"] := by
  constructor <;> decide

/-- C3 amended: the job type is absent or one of the six `str.title()`
images Full-Time, Part-Time, Contract, Temporary, Permanent, Casual. -/
theorem c3_job_type_canonical : ∀ soup desc,
    extract_job_type soup desc = none ∨
    extract_job_type soup desc ∈
      [some "Full-Time", some "Part-Time", some "Contract", some "Temporary",
       some "Permanent", some "Casual"] := by
  intro soup desc
  rcases h : scanJobType false (lowerL (getAllText soup).data) with _ | tok
  · left; simp [extract_job_type, h]
  · right
    have hm := scanJobType_mem _ _ _ h
    simp only [extract_job_type, h]
    simp only [jobTypeTokens, List.mem_cons, List.not_mem_nil, or_false] at hm
    rcases hm with rfl | rfl | rfl | rfl | rfl | rfl <;> decide

/-- C4 counterexample: a document saying IT department is classified as
no industry by the code, while the spec's case-insensitive reading
classifies it as Technology — the upper-case keyword `IT` never occurs
in the lowered text. -/
theorem c4_case_sensitivity_counterexample :
    extract_industry c4doc "Company Name Not Found" = none ∧
    industrySpec c4doc "Company Name Not Found" = some "Technology" := by
  constructor <;> decide

/-- C4 amended: the industry is the first of the five, in the fixed
priority order, with a keyword occurring verbatim (case-sensitively) in
the lowered text plus company name, else absent; on a document holding
both a technology and a finance keyword the priority order yields
Technology. -/
theorem c4_industry_priority :
    (∀ soup company,
      extract_industry soup company =
        (let t := lowerL ((getAllText soup).data ++ ' ' :: company.data)
         if anyKw ["software", "tech", "digital", "IT", "computer"] t then
           some "Technology"
         else if anyKw ["bank", "finance", "investment", "accounting"] t then
           some "Finance"
         else if anyKw ["health", "medical", "hospital", "pharmaceutical"] t then
           some "Healthcare"
         else if anyKw ["university", "school", "education", "academic"] t then
           some "Education"
         else if anyKw ["retail", "store", "shop", "commerce"] t then
           some "Retail"
         else none)) ∧
    extract_industry c4prioDoc "" = some "Technology" := by
  refine ⟨fun soup company => rfl, by decide⟩

/-- C5 counterexample: a document whose only node is an empty `<title>`
has no structural hook and no usable title text, yet the extractor
returns the empty string, not the placeholder. -/
theorem c5_empty_title_counterexample :
    extract_job_title c5ceDoc = "" ∧
    extract_job_title c5ceDoc ≠ "Unknown Position" := by
  constructor <;> decide

/-- C5 amended: when every structural selector fails, the title is the
stripped `<title>` text whenever a `<title>` element exists — empty text
included — and the placeholder exactly when the element is missing; the
suffix pattern strips a pipe-Careers tail. -/
theorem c5_title_fallback : ∀ soup,
    firstSelNonEmpty soup titleSelectors = none →
    (findTag "title" soup = none → extract_job_title soup = "Unknown Position") ∧
    (∀ tg, findTag "title" soup = some tg →
      extract_job_title soup = stripTitleSuffix (nodeTextStrip tg)) ∧
    stripTitleSuffix "Data Analyst | Careers at Foo" = "Data Analyst" := by
  intro soup h
  refine ⟨fun h2 => ?_, fun tg h2 => ?_, by decide⟩
  · simp [extract_job_title, h, h2]
  · simp [extract_job_title, h, h2]

/-- C5 witness: the amended theorem applied to a document with only a
suffixed `<title>`. -/
theorem c5_title_fallback_witness : extract_job_title c5wDoc = "Data Analyst" := by
  have h := (c5_title_fallback c5wDoc (by decide)).2.1 _ rfl
  rw [h]
  decide

/-- C6: when every company selector fails, the result is the first
pattern-order candidate — each pattern contributing its leftmost match,
stripped — accepted by the longer-than-two and known-false-positive
filter, else the placeholder. -/
theorem c6_company_regex_cascade : ∀ soup jt,
    firstSelNonEmpty soup companySelectors = none →
    extract_company_name soup jt =
      ((companyCandidates (getAllText soup).data).find? acceptCompany).getD
        "Company Name Not Found" := by
  intro soup jt h
  simp only [extract_company_name, h]
  generalize (getAllText soup).data = t
  rcases h1 : scanOpt tryCompany1 t with _ | g1 <;>
    rcases h2 : scanOpt tryCompany2 t with _ | g2 <;>
      rcases h3 : scanOpt tryCompany3 t with _ | g3 <;>
        simp only [companyLoop, companyPatterns, companyCandidates, h1, h2, h3,
          List.filterMap, id, List.map, List.find?] <;>
        repeat' split <;> simp_all

/-- C6 witness: the theorem applied to a document whose text matches the
Company: label pattern. -/
theorem c6_company_regex_cascade_witness :
    extract_company_name c6wDoc "" = "Acme Corp." := by
  rw [c6_company_regex_cascade c6wDoc "" (by decide)]
  decide

/-- C7 counterexample: when the `Salary:` label pattern is the one that
matches, the code returns the whole match — the label included — not
the captured remainder of the line. -/
theorem c7_label_counterexample :
    extract_salary c7doc "" = some "Salary: negotiable" ∧
    extract_salary c7doc "" ≠ some "negotiable" := by
  constructor <;> decide

/-- C7 amended: salary is the stripped whole match of the first of the
three patterns in order, absent when none matches; any match of the
label pattern starts with the word salary, so the label is kept. -/
theorem c7_salary_cascade :
    (∀ soup desc, extract_salary soup desc =
      (salaryScan (getAllText soup).data).map (fun m => pyStrip (String.mk m))) ∧
    (∀ t m, scanOpt trySal3 t = some m →
      "salary".data.isPrefixOf (lowerL m) = true) := by
  refine ⟨fun soup desc => rfl, fun t m h => ?_⟩
  obtain ⟨l2, h2⟩ := scanOpt_some trySal3 t m h
  exact trySal3_label l2 m h2

/-- C7 witness: the theorem applied to the concrete label-only text. -/
theorem c7_salary_cascade_witness :
    "salary".data.isPrefixOf (lowerL "Salary: negotiable".data) = true :=
  c7_salary_cascade.2 "Salary: negotiable".data "Salary: negotiable".data
    (by decide)

/-- C8 counterexample: an empty-text `.location` match stops the cascade
with the empty string; the later non-empty `.job-location` node is never
reached and the result is neither Sydney nor absent. -/
theorem c8_empty_match_counterexample :
    extract_location c8doc = some "" ∧
    extract_location c8doc ≠ some "Sydney" ∧
    extract_location c8doc ≠ none := by
  refine ⟨by decide, by decide, by decide⟩

/-- C8 amended: the location is the stripped text of the first selector
matching any element at all — empty text included — absent only when no
selector matches; the class-based scenario still yields Remote, AU. -/
theorem c8_location_existence_cascade :
    (∀ soup, extract_location soup =
      (firstSelMatch soup locationSelectors).map nodeTextStrip) ∧
    extract_location c8remoteDoc = some "Remote, AU" := by
  refine ⟨fun soup => locLoop_eq_firstSelMatch soup locationSelectors, by decide⟩

/-- A run of the letter a is unchanged by Python strip. -/
theorem pyStripL_replicate_a (n : Nat) :
    pyStripL (List.replicate n 'a') = List.replicate n 'a' := by
  have hd : ∀ m : Nat,
      (List.replicate m 'a').dropWhile isPySpace = List.replicate m 'a' := by
    intro m
    cases m with
    | zero => rfl
    | succ k =>
      rw [List.replicate_succ, List.dropWhile_cons, if_neg (by decide)]
  unfold pyStripL
  rw [hd, List.reverse_replicate, hd, List.reverse_replicate]

/-- C9 counterexample: a description selector match is returned uncapped,
so the text the requirement patterns run on exceeds 2000 characters. -/
theorem c9_uncapped_counterexample :
    2000 < (extract_job_description c9doc).length := by
  have h1 : extract_job_description c9doc =
      nodeTextSpaceStrip (Node.elem "div" ["job-description"] []
        (nlist [Node.text (String.mk (List.replicate 2001 'a'))])) := rfl
  have hps : pyStrip (String.mk (List.replicate 2001 'a')) =
      String.mk (List.replicate 2001 'a') := by
    unfold pyStrip
    rw [show (String.mk (List.replicate 2001 'a')).data =
      List.replicate 2001 'a' from rfl, pyStripL_replicate_a]
  have hne : (String.mk (List.replicate 2001 'a') != "") = true := by
    rw [List.replicate_succ]
    decide
  have h2 : nodeTextSpaceStrip (Node.elem "div" ["job-description"] []
      (nlist [Node.text (String.mk (List.replicate 2001 'a'))])) =
      String.mk (List.replicate 2001 'a') := by
    unfold nodeTextSpaceStrip
    rw [show frags (Node.elem "div" ["job-description"] []
      (nlist [Node.text (String.mk (List.replicate 2001 'a'))])) =
      [String.mk (List.replicate 2001 'a')] from rfl]
    rw [List.map_singleton, hps, List.filter_singleton, hne]
    rfl
  rw [h1, h2]
  show 2000 < (List.replicate 2001 'a').length
  rw [List.length_replicate]
  omega

/-- C9 amended: the 2000-character cap applies exactly to the fallback
branch — whenever no description selector matches, the description is at
most 2000 characters long. -/
theorem c9_fallback_cap : ∀ soup,
    (firstSelMatch soup descriptionSelectors).isNone = true →
    (extract_job_description soup).length ≤ 2000 := by
  intro soup h
  have h2 : firstSelMatch soup descriptionSelectors = none :=
    Option.isNone_iff_eq_none.mp h
  simp only [extract_job_description, h2]
  exact List.length_take_le 2000 _

/-- C9 witness: the amended theorem applied to the empty document. -/
theorem c9_fallback_cap_witness : (extract_job_description emptyDoc).length ≤ 2000 :=
  c9_fallback_cap emptyDoc (by decide)

/-- C10 counterexample: on the exact scenario input the company name is
AcmeAcme — `get_text()` joins the title and article text with no
separator, and the at-pattern fires before the is-hiring pattern — not
Acme Corp. -/
theorem c10_company_counterexample :
    (extract_job_details c10doc "").company_name = "AcmeAcme" ∧
    (extract_job_details c10doc "").company_name ≠ "Acme Corp" := by
  constructor <;> decide

/-- C10 amended: the scenario yields job title Software Engineer with the
suffix stripped and the requirements entry from the Requirements: label,
but company name AcmeAcme via the at-pattern. -/
theorem c10_scenario :
    (extract_job_details c10doc "").job_title = "Software Engineer" ∧
    (extract_job_details c10doc "").company_name = "AcmeAcme" ∧
    (extract_job_details c10doc "").requirements = ["5 years Python experience"] := by
  refine ⟨by decide, by decide, by decide⟩

end CVGen
